import Mathlib

/-!
Verification development for the FontSeek content script (src/content.js).

The script is a browser content script; all interaction with the rendering
engine (computed styles, text measurement, the loaded-font registry, canvas
pixel read-back, hit testing) is modelled as explicit environment records
whose fields are pure functions, and every source function is translated
into a pure Lean function over those environments.  Mutable script state
(the font-availability cache, the `usedForcedMode` flag, the session-active
guard) is threaded explicitly.  JavaScript numbers that the relevant code
paths only ever use integrally (pixel offsets, weights, scores, box metrics)
are modelled as `Int`/`Nat`; exceptions caught by the source's try/catch
blocks around DOM reads are modelled by `Option` results of the
corresponding environment fields.
-/

/-! ### Basic string helpers (src/content.js) -/

/-- The single-quote character, built numerically (codepoint 39). -/
def squoteC : Char := Char.ofNat 39

/-- The single-quote character as a one-character string. -/
def squoteS : String := String.mk [squoteC]

/-- Model of JavaScript `toLowerCase` on the ASCII names handled here:
character-wise lowercasing. -/
def jsToLower (s : String) : String := String.mk (s.data.map Char.toLower)

/-- Model of JavaScript `trim`: drop leading and trailing whitespace. -/
def jsTrim (s : String) : String :=
  String.mk (((s.data.dropWhile Char.isWhitespace).reverse.dropWhile Char.isWhitespace).reverse)

/-- Character-list implementation of `String.startsWith` (kept
kernel-computable). -/
def jsStartsWith (s p : String) : Bool := p.data.isPrefixOf s.data

/-- Character-list implementation of `String.endsWith`. -/
def jsEndsWith (s p : String) : Bool := p.data.reverse.isPrefixOf s.data.reverse

/-- Split a character list at a separator character (JavaScript
`split(sep)` semantics: the empty string yields one empty part). -/
def splitChAux (sep : Char) : List Char → List (List Char)
  | [] => [[]]
  | c :: rest =>
      let r := splitChAux sep rest
      if c = sep then [] :: r
      else
        match r with
        | h :: t => (c :: h) :: t
        | [] => [[c]]

/-- JavaScript `s.split(sep)` for a single-character separator. -/
def splitCh (sep : Char) (s : String) : List String := (splitChAux sep s.data).map String.mk

/-- Whether `pat` occurs as an infix of the list. -/
def containsAux (pat : List Char) : List Char → Bool
  | [] => pat.isEmpty
  | c :: rest => pat.isPrefixOf (c :: rest) || containsAux pat rest

/-- Decimal value of a digit list. -/
def digitsToNat (l : List Char) : Nat := l.foldl (fun acc c => acc * 10 + (c.toNat - 48)) 0

/-- All-digits decimal parse (used by the spec-modelled rgb() reader). -/
def jsToNat (s : String) : Option Nat :=
  if s.data ≠ [] && s.data.all Char.isDigit then some (digitsToNat s.data) else none

/-- Model of the regex `replace(/^['"]|['"]$/g, "")` used throughout
src/content.js: removes at most one leading quote character (single or
double) and at most one trailing quote character; the two removals are
independent and the quotes need not match. -/
def stripQuotes (s : String) : String :=
  let s1 := if jsStartsWith s "\"" || jsStartsWith s squoteS then s.drop 1 else s
  if jsEndsWith s1 "\"" || jsEndsWith s1 squoteS then s1.dropRight 1 else s1

/-- Substring test: model of JavaScript `/pat/.test(s)` for a literal
pattern `pat`. -/
def containsSub (s pat : String) : Bool :=
  containsAux pat.data s.data

/-- `parseFamilies` (src/content.js lines 505-509): split a font-family
declaration on commas, trim each part, strip surrounding quotes, and drop
empty results. -/
def parseFamilies (fontFamilyStr : String) : List String :=
  ((splitCh ',' fontFamilyStr).map (fun s => stripQuotes (jsTrim s))).filter (fun s => s ≠ "")

/-- `genericSet` (src/content.js lines 499-502): CSS generic family
keywords. -/
def genericSet : List String :=
  ["ui-sans-serif", "ui-serif", "ui-monospace", "ui-rounded",
   "sans-serif", "serif", "monospace", "cursive", "fantasy", "emoji", "math", "fangsong"]

/-- `ALIAS_SET` (src/content.js line 503): engine-internal system-font
alias keywords. -/
def ALIAS_SET : List String := ["-apple-system", "blinkmacsystemfont"]

/-! ### Weight utilities (src/content.js lines 942-962) -/

/-- A CSS `font-weight` value as the source receives it: either a string
(computed style) or a number.  The code paths only ever treat the numeric
case integrally, so the number is modelled as `Int`. -/
inductive CssWeight
  | str (s : String)
  | num (n : Int)

/-- `WEIGHT_NAMES` (src/content.js line 943). -/
def WEIGHT_NAMES : List (Int × String) :=
  [(100, "Thin"), (200, "Extra Light"), (300, "Light"), (400, "Regular"),
   (500, "Medium"), (600, "Semi Bold"), (700, "Bold"), (800, "Extra Bold"), (900, "Black")]

/-- `WEIGHT_NAMES[b] || "Regular"`: object lookup with default. -/
def weightName (b : Int) : String :=
  match WEIGHT_NAMES.find? (fun p => p.1 = b) with
  | some p => p.2
  | none => "Regular"

/-- Model of JavaScript `parseInt(s, 10)`: trim, optional sign, then the
longest leading run of decimal digits; `none` models `NaN`. -/
def jsParseInt (s : String) : Option Int :=
  let t := jsTrim s
  let (neg, t2) :=
    if jsStartsWith t "-" then (true, t.drop 1)
    else if jsStartsWith t "+" then (false, t.drop 1)
    else (false, t)
  let digits := t2.toList.takeWhile Char.isDigit
  if digits.isEmpty then none
  else
    let n : Nat := digits.foldl (fun acc c => acc * 10 + (c.toNat - 48)) 0
    some (if neg then -(n : Int) else (n : Int))

/-- `normalizeWeightNumber` (src/content.js lines 944-955). -/
def normalizeWeightNumber : CssWeight → Int
  | CssWeight.str s =>
      let t := jsToLower s
      if t = "normal" then 400
      else if t = "bold" then 700
      else
        match jsParseInt t with
        | some n => min 900 (max 100 n)
        | none => 400
  | CssWeight.num n => min 900 (max 100 n)

/-- `bucketWeight` (src/content.js line 956): `Math.round(n / 100) * 100`
clamped to [100, 900].  JavaScript `Math.round(x)` is `floor(x + 1/2)`,
and `floor(n/100 + 1/2) = floor((n + 50) / 100)`, i.e. `Int.fdiv`. -/
def bucketWeight (n : Int) : Int :=
  min 900 (max 100 (((n + 50).fdiv 100) * 100))

/-- `formatWeight` (src/content.js lines 957-962). -/
def formatWeight (w : CssWeight) : String :=
  let n := normalizeWeightNumber w
  let b := bucketWeight n
  let name := weightName b
  toString n ++ " — " ++ name

/-! ### Session lifecycle (src/content.js lines 6-9, 2043-2082) -/

/-- Process-wide session state: `active` models `window.__FS_ACTIVE__`;
`sessions` counts how many sessions are concurrently started (how many
times `start()` installed its listeners without a matching `stop()`). -/
structure SessionState where
  active : Bool
  sessions : Nat
deriving DecidableEq

/-- One run of the injected content script (the IIFE, src/content.js
lines 6-9 and 2043-2083): if a session is already active, the guard calls
`window.__FS_API__.stop()` — which tears everything down and clears the
active flag — and returns without starting anything; otherwise it sets the
active flag and calls `start()`, installing one session. -/
def scriptRun (s : SessionState) : SessionState :=
  if s.active then { active := false, sessions := s.sessions - 1 }
  else { active := true, sessions := s.sessions + 1 }

/-! ### Color resolution (src/content.js lines 796-823) -/

/-- A sampled pixel, each channel a byte. -/
structure RGBA where
  r : Nat
  g : Nat
  b : Nat
  a : Nat
deriving DecidableEq

/-- The rendering-engine capability used by `resolveColor`: filling a 1x1
canvas with a CSS color string and reading the pixel back.  The engine's
own CSS color parsing is behind this single function. -/
structure ColorEnv where
  fill : String → RGBA

/-- `resolveColor` (src/content.js lines 796-807): draw the color on a 1x1
canvas and read back the RGBA bytes; the function performs no string
parsing of its own. -/
def resolveColor (env : ColorEnv) (color : String) : RGBA :=
  env.fill color

/-- Hex-digit test for `parseHexToRgb`. -/
def isHexDigit (c : Char) : Bool :=
  c.isDigit || (97 ≤ c.toLower.toNat && c.toLower.toNat ≤ 102)

/-- Value of a hex digit. -/
def hexVal (c : Char) : Nat :=
  if c.isDigit then c.toNat - 48 else c.toLower.toNat - 87

/-- `parseHexToRgb` (src/content.js lines 815-823): validates
`#RGB`, `#RRGGBB` or `#RRGGBBAA` (case-insensitive) and returns the RGB
triple; for the 8-digit form the alpha pair is ignored, as in the source
(`v.slice(0, 6)`). -/
def parseHexToRgb (hex : String) : Option (Nat × Nat × Nat) :=
  let h := jsTrim hex
  let v := (h.drop 1).toList
  if jsStartsWith h "#" && v.all isHexDigit &&
      (v.length = 3 || v.length = 6 || v.length = 8) then
    match v with
    | [r1, g1, b1] => some (17 * hexVal r1, 17 * hexVal g1, 17 * hexVal b1)
    | r1 :: r2 :: g1 :: g2 :: b1 :: b2 :: _ =>
        some (16 * hexVal r1 + hexVal r2, 16 * hexVal g1 + hexVal g2, 16 * hexVal b1 + hexVal b2)
    | _ => none
  else none

/-- Modelled from the spec: a fragment of the host rendering engine's own
CSS color parser (the canvas `fillStyle` semantics), which is external to
this repository.  Only the syntaxes needed as a concrete witness are
covered: hex colors (via the repository's own `parseHexToRgb` grammar) and
the functional `rgb(r, g, b)` notation; anything else samples as
transparent black, the canvas default for an invalid fill. -/
def parseRgbFunc (s : String) : Option (Nat × Nat × Nat) :=
  let t := jsTrim s
  if jsStartsWith t "rgb(" && jsEndsWith t ")" then
    let inner := (t.drop 4).dropRight 1
    match (splitCh ',' inner).map (fun p => jsToNat (jsTrim p)) with
    | [some r, some g, some b] =>
        if r ≤ 255 && g ≤ 255 && b ≤ 255 then some (r, g, b) else none
    | _ => none
  else none

/-- Modelled from the spec: concrete host color-parsing environment used
as a witness; see `parseRgbFunc`. -/
def cssHostFill (s : String) : RGBA :=
  match parseHexToRgb s with
  | some (r, g, b) => ⟨r, g, b, 255⟩
  | none =>
      match parseRgbFunc s with
      | some (r, g, b) => ⟨r, g, b, 255⟩
      | none => ⟨0, 0, 0, 0⟩

/-- The concrete witness environment for color resolution. -/
def cssHostEnv : ColorEnv := ⟨cssHostFill⟩

/-! ### Font availability oracle (src/content.js lines 511-662) -/

/-- One entry of the `document.fonts` registry (a `FontFace`): the fields
the source reads. -/
structure LoadedFontInfo where
  family : String
  status : String
  weight : String
  style : String

/-- The rendering-engine capabilities the font code depends on:
`measure` is the `measure` primitive (src/content.js lines 513-527), which
renders `text` at `fontSizePx` with font-family `"family", fallback` and
reports `[offsetWidth, offsetHeight]`; `fontsCheck` is
`document.fonts.check` applied to a font shorthand string;
`hasFontsCheck` / `hasFontsForEach` model the feature tests on
`document.fonts`; `documentFonts` is the registry contents in iteration
order; `ua` is `navigator.userAgent`. -/
structure FontEnv where
  measure : String → Nat → String → String → Nat × Nat
  hasFontsCheck : Bool
  fontsCheck : String → Bool
  hasFontsForEach : Bool
  documentFonts : List LoadedFontInfo
  ua : String

/-- The glyph-heavy wide probe string (src/content.js line 530). -/
def WIDE : String := "MW@#Il1Oo0WWMWMWmmmmmmmmmmmm"

/-- The glyph-heavy narrow probe string (src/content.js line 530). -/
def NARROW : String := ".,;:iIl!|[]()ftjrxn"

/-- Probe sizes (src/content.js line 531). -/
def probeSizes : List Nat := [32, 48]

/-- Probe fallback families (src/content.js line 531). -/
def probeFallbacks : List String := ["serif", "sans-serif", "monospace"]

/-- `canvasAvailable` (src/content.js lines 528-548), translated exactly:
for every fallback/size combination the candidate's box `d` is compared
against BOTH baseline boxes `r.W` (wide string under the placeholder
`_fs_fake_`) and `r.N` (narrow string under the placeholder), and the
per-combination condition is `d ≠ r.W ∨ d ≠ r.N`.  The source's
try/catch returns false only on a thrown measurement; the model's
measurer is total. -/
def canvasAvailable (fe : FontEnv) (family : String) : Bool :=
  let differsAll := fun (getter : Nat → String → Nat × Nat) =>
    probeFallbacks.all fun f => probeSizes.all fun sz =>
      let d := getter sz f
      let rW := fe.measure WIDE sz "_fs_fake_" f
      let rN := fe.measure NARROW sz "_fs_fake_" f
      (d ≠ rW || d ≠ rN)
  differsAll (fun sz f => fe.measure WIDE sz family f)
    || differsAll (fun sz f => fe.measure NARROW sz family f)

/-- The canvas probe as the spec states it (section 4.2 step 3): the
candidate is available exactly when, for the wide string or for the
narrow string, its box differs from THAT string's placeholder baseline
box at every fallback/size combination; matching the baseline in any case
makes it indistinguishable from absent. -/
def specCanvasAvailable (fe : FontEnv) (family : String) : Bool :=
  let differsAllSpec := fun (text : String) =>
    probeFallbacks.all fun f => probeSizes.all fun sz =>
      fe.measure text sz family f ≠ fe.measure text sz "_fs_fake_" f
  differsAllSpec WIDE || differsAllSpec NARROW

/-- Platform sniffing `/Windows/.test(ua)` (src/content.js line 596). -/
def uaIsWin (fe : FontEnv) : Bool := containsSub fe.ua "Windows"

/-- Platform sniffing `/Macintosh|Mac OS X/.test(ua)`. -/
def uaIsMac (fe : FontEnv) : Bool :=
  containsSub fe.ua "Macintosh" || containsSub fe.ua "Mac OS X"

/-- Platform sniffing `/Linux/.test(ua)`. -/
def uaIsLinux (fe : FontEnv) : Bool := containsSub fe.ua "Linux"

/-- The per-OS known-font allowlist of `isFontAvailable` METHOD 4
(src/content.js lines 600-603). -/
def allowedList (fe : FontEnv) : List String :=
  if uaIsWin fe then
    ["segoe ui", "segoe ui variable", "arial", "tahoma", "verdana", "times new roman", "courier new"]
  else if uaIsMac fe then
    ["sf pro", "sf pro text", "helvetica neue", "helvetica", "arial", "times new roman", "courier new"]
  else if uaIsLinux fe then
    ["ubuntu", "cantarell", "dejavu sans", "noto sans", "liberation sans", "arial"]
  else []

/-- The session-wide `fontAvailCache` (src/content.js line 512), an
association list keyed by the lowercased stripped name; the most recent
write is at the head. -/
abbrev Cache := List (String × Bool)

/-- Cache lookup (`fontAvailCache.get`). -/
def cacheGet : Cache → String → Option Bool
  | [], _ => none
  | (k, v) :: rest, key => if k = key then some v else cacheGet rest key

/-- The uncached verdict of `isFontAvailable` (src/content.js lines
554-611) for a nonempty raw name on a cache miss: the generic
short-circuit, then METHOD 1 (`document.fonts.check` at three variants),
METHOD 2 (registry enumeration by case-insensitive family match, with the
same quote-stripping and no trim, as in the source), METHOD 3 (the canvas
probe) and METHOD 4 (the platform allowlist), first success winning.  In
the source each branch stores its verdict under the same key `low` and
returns it, so the cascade collapses to one short-circuit disjunction
whose result is stored once. -/
def availVerdict (fe : FontEnv) (name low : String) : Bool :=
  genericSet.contains low
  || (fe.hasFontsCheck &&
        (fe.fontsCheck ("16px \"" ++ name ++ "\"")
          || fe.fontsCheck ("12px \"" ++ name ++ "\"")
          || fe.fontsCheck ("bold 16px \"" ++ name ++ "\"")))
  || (fe.hasFontsForEach &&
        fe.documentFonts.any (fun ff => jsToLower (stripQuotes ff.family) = low))
  || canvasAvailable fe name
  || (allowedList fe).contains low

/-- `isFontAvailable` (src/content.js lines 549-612): the empty raw name
short-circuits to false without touching the cache; otherwise the name is
trimmed, quote-stripped and lowercased into the cache key, a hit returns
the memoized verdict, and a miss computes `availVerdict` and memoizes it. -/
def isFontAvailable (fe : FontEnv) (cache : Cache) (nameRaw : String) : Bool × Cache :=
  if nameRaw = "" then (false, cache)
  else
    let name := stripQuotes (jsTrim nameRaw)
    let low := jsToLower name
    match cacheGet cache low with
    | some v => (v, cache)
    | none =>
        let v := availVerdict fe name low
        (v, (low, v) :: cache)

/-- The normal form named by claim C10, which is exactly the cache-key
computation of `isFontAvailable`: trim, strip one leading and one
trailing quote character, lowercase. -/
def claimNormalForm (s : String) : String :=
  jsToLower (stripQuotes (jsTrim s))

/-- `metricsEqual` (src/content.js lines 613-622). -/
def metricsEqual (fe : FontEnv) (a b : String) : Bool :=
  probeFallbacks.all fun fb =>
    fe.measure "MW@#Il1Oo0mmmmWWW" 40 a fb = fe.measure "MW@#Il1Oo0mmmmWWW" 40 b fb

/-- `isSystemFallback` (src/content.js lines 637-647). -/
def isSystemFallback (fe : FontEnv) (font systemFont : String) : Bool :=
  fe.measure "MW@#Il1Oo0mmmmWWW" 48 font systemFont
    = fe.measure "MW@#Il1Oo0mmmmWWW" 48 systemFont "sans-serif"

/-- The platform candidate list of `findMatchingPlatformFont`
(src/content.js lines 623-631). -/
def platformCandidates (fe : FontEnv) : List String :=
  if uaIsWin fe then
    ["Segoe UI Variable", "Segoe UI", "Arial", "Tahoma", "Verdana", "Times New Roman", "Courier New"]
  else if uaIsMac fe then
    ["SF Pro Text", "SF Pro Display", "Helvetica Neue", "Helvetica", "Arial", "Times New Roman", "Courier New"]
  else
    ["Ubuntu", "Cantarell", "DejaVu Sans", "Noto Sans", "Liberation Sans", "Arial"]

/-- The candidate loop of `findMatchingPlatformFont` (src/content.js
lines 632-635), threading the availability cache. -/
def findMatchingGo (fe : FontEnv) (font : String) : List String → Cache → Option String × Cache
  | [], c => (none, c)
  | cand :: rest, c =>
      let (ok, c1) := isFontAvailable fe c cand
      if ok && metricsEqual fe font cand then (some cand, c1)
      else findMatchingGo fe font rest c1

/-- `findMatchingPlatformFont` (src/content.js lines 623-636). -/
def findMatchingPlatformFont (fe : FontEnv) (cache : Cache) (font : String) :
    Option String × Cache :=
  findMatchingGo fe font (platformCandidates fe) cache

/-- `mapAliasToPlatformFont` (src/content.js lines 649-654). -/
def mapAliasToPlatformFont (fe : FontEnv) (cache : Cache) (aliasName : String) : String × Cache :=
  match findMatchingPlatformFont fe cache aliasName with
  | (some m, c) => (m, c)
  | (none, c) =>
      (if uaIsWin fe then "Segoe UI"
       else if uaIsMac fe then "SF Pro"
       else "system-ui", c)

/-- `getSystemFonts` (src/content.js lines 656-662). -/
def getSystemFonts (fe : FontEnv) : List String :=
  if uaIsWin fe then ["Segoe UI Variable", "Segoe UI", "Arial", "Tahoma", "Verdana"]
  else if uaIsMac fe then ["SF Pro Text", "SF Pro Display", "Helvetica Neue", "Helvetica", "Arial"]
  else if uaIsLinux fe then ["Ubuntu", "Cantarell", "DejaVu Sans", "Noto Sans", "Arial"]
  else ["Arial", "sans-serif"]

/-! ### Family resolution cascade (src/content.js lines 243-372, 666-793) -/

/-- The style-reading capabilities `resolveFamily` and its helper
strategies depend on: `fontFamily` is `getComputedStyle(node).fontFamily`;
`parent`/`host` give the logical-ancestor relation used by `ascend`
(src/content.js lines 31-37); `bodyFontFamily`/`rootFontFamily` are the
computed font-family of `document.body` and `document.documentElement`;
`cssVar el v` is `getComputedStyle(el).getPropertyValue(v)`;
`inlineFontFamily` is `node.style.fontFamily` (empty when unset);
`fontFaceFamilies` lists the raw `font-family` descriptor values of the
readable `@font-face` rules in stylesheet order.  Nodes are identified by
`Nat` and are all elements (`nodeType === 1`). -/
structure StyleEnv where
  fontFamily : Nat → String
  parent : Nat → Option Nat
  host : Nat → Option Nat
  bodyFontFamily : String
  rootFontFamily : String
  cssVar : Nat → String → String
  inlineFontFamily : Nat → String
  fontFaceFamilies : List String

/-- `ascend` (src/content.js lines 31-37): parent element, else the
enclosing shadow host. -/
def ascendS (se : StyleEnv) (n : Nat) : Option Nat :=
  match se.parent n with
  | some p => some p
  | none => se.host n

/-- The CSS custom-property names probed by `findCSSVariableFonts`
(src/content.js lines 358-362). -/
def varPatterns : List String :=
  ["--font-family", "--heading-font", "--body-font", "--primary-font",
   "--font-sans", "--font-serif", "--font-mono", "--typography-font",
   "--font-main", "--font-base", "--text-font", "--ff-primary"]

/-- `findCSSVariableFonts` (src/content.js lines 353-372). -/
def findCSSVariableFonts (se : StyleEnv) (el : Nat) : List String :=
  varPatterns.foldl
    (fun acc vp =>
      let value := jsTrim (se.cssVar el vp)
      if value ≠ "" then acc ++ parseFamilies value else acc)
    []

/-- The ancestor walk of `findInlineStyleFonts` (src/content.js lines
333-350): up to 10 hops, collecting parsed inline font-family
declarations. -/
def inlineFontsGo (se : StyleEnv) : Nat → Option Nat → List String → List String
  | 0, _, acc => acc
  | _, none, acc => acc
  | Nat.succ k, some n, acc =>
      let acc :=
        if se.inlineFontFamily n ≠ "" then acc ++ parseFamilies (se.inlineFontFamily n)
        else acc
      inlineFontsGo se k (ascendS se n) acc

/-- `findInlineStyleFonts` (src/content.js lines 333-350). -/
def findInlineStyleFonts (se : StyleEnv) (el : Nat) : List String :=
  inlineFontsGo se 10 (some el) []

/-- `getLoadedWebFonts` (src/content.js lines 243-262): loaded registry
entries, family quote-stripped and trimmed, generics dropped; `weight` and
`style` default to "normal" when empty. -/
def getLoadedWebFonts (fe : FontEnv) : List LoadedFontInfo :=
  fe.documentFonts.foldl
    (fun acc ff =>
      if ff.status = "loaded" && ff.family ≠ "" then
        let family := jsTrim (stripQuotes ff.family)
        if family ≠ "" && !genericSet.contains (jsToLower family) then
          acc ++ [{ family := family,
                    status := ff.status,
                    weight := if ff.weight = "" then "normal" else ff.weight,
                    style := if ff.style = "" then "normal" else ff.style }]
        else acc
      else acc)
    []

/-- The key list of the map built by `getFontFaceRules` (src/content.js
lines 265-295): each readable `@font-face` family value trimmed,
quote-stripped and trimmed again, skipping empties and generics,
deduplicated case-sensitively in first-occurrence order (JavaScript `Map`
insertion order). -/
def getFontFaceFamilies (se : StyleEnv) : List String :=
  se.fontFaceFamilies.foldl
    (fun acc raw =>
      let family := jsTrim (stripQuotes (jsTrim raw))
      if family = "" || genericSet.contains (jsToLower family) then acc
      else if acc.contains family then acc
      else acc ++ [family])
    []

/-- The mutable locals of `resolveFamily` (src/content.js lines 666-671)
plus the threaded cache and the `usedForcedMode` flag. -/
structure ResolveState where
  seen : List String
  firstAlias : Option String
  firstGeneric : Option String
  chosen : Option String
  allDeclared : List String
  cache : Cache
  forced : Bool

/-- One token step of `scanList` (src/content.js lines 673-685): record
the cleaned name among the declared families, skip names already seen,
remember the first alias and first generic, and otherwise probe
availability when nothing is chosen yet. -/
def scanStep (fe : FontEnv) (st : ResolveState) (raw : String) : ResolveState :=
  let name := stripQuotes (jsTrim raw)
  if name = "" then st
  else
    let st1 := { st with allDeclared := st.allDeclared ++ [name] }
    let low := jsToLower name
    if st1.seen.contains low then st1
    else
      let st2 := { st1 with seen := st1.seen ++ [low] }
      if ALIAS_SET.contains low then
        { st2 with firstAlias := if st2.firstAlias.isNone then some name else st2.firstAlias }
      else if genericSet.contains low then
        { st2 with firstGeneric := if st2.firstGeneric.isNone then some name else st2.firstGeneric }
      else if st2.chosen.isNone then
        let (ok, c) := isFontAvailable fe st2.cache name
        { st2 with cache := c, chosen := if ok then some name else none }
      else st2

/-- `scanList` (src/content.js lines 673-685). -/
def scanList (fe : FontEnv) (st : ResolveState) (families : List String) : ResolveState :=
  families.foldl (scanStep fe) st

/-- Stage 1 ancestor walk of `resolveFamily` (src/content.js lines
687-696): up to 8 hops, scanning each node's computed font-family. -/
def stage1Go (fe : FontEnv) (se : StyleEnv) : Nat → Option Nat → ResolveState → ResolveState
  | 0, _, st => st
  | _, none, st => st
  | Nat.succ k, some n, st =>
      let st := scanList fe st (parseFamilies (se.fontFamily n))
      stage1Go fe se k (ascendS se n) st

/-- Stage 4 first pass (src/content.js lines 714-726): the
declared-preference pass over the loaded-font registry.  A candidate is
considered only when its lowercased family is NOT in `seen` and it is
available; it is selected only when that same lowercased family IS among
the declared tokens. -/
def stage4Pass1 (fe : FontEnv) : List LoadedFontInfo → ResolveState → ResolveState
  | [], st => st
  | fi :: rest, st =>
      let name := fi.family
      if st.seen.contains (jsToLower name) then stage4Pass1 fe rest st
      else
        let (ok, c) := isFontAvailable fe st.cache name
        let st1 := { st with cache := c }
        if ok && (st1.allDeclared.map jsToLower).contains (jsToLower name) then
          { st1 with chosen := some name }
        else stage4Pass1 fe rest st1

/-- Stage 4 second pass (src/content.js lines 729-737): accept the first
loaded, available font, raising the forced flag. -/
def stage4Pass2 (fe : FontEnv) : List LoadedFontInfo → ResolveState → ResolveState
  | [], st => st
  | fi :: rest, st =>
      let (ok, c) := isFontAvailable fe st.cache fi.family
      let st1 := { st with cache := c }
      if ok then { st1 with chosen := some fi.family, forced := true }
      else stage4Pass2 fe rest st1

/-- Stage 5 first pass (src/content.js lines 742-752): declared-preference
pass over `@font-face` families (this one has no `seen` guard), raising
the forced flag on success. -/
def stage5Pass1 (fe : FontEnv) : List String → ResolveState → ResolveState
  | [], st => st
  | family :: rest, st =>
      let (ok, c) := isFontAvailable fe st.cache family
      let st1 := { st with cache := c }
      if ok && (st1.allDeclared.map jsToLower).contains (jsToLower family) then
        { st1 with chosen := some family, forced := true }
      else stage5Pass1 fe rest st1

/-- Stage 5 second pass (src/content.js lines 755-763): first available
`@font-face` family, forced. -/
def stage5Pass2 (fe : FontEnv) : List String → ResolveState → ResolveState
  | [], st => st
  | family :: rest, st =>
      let (ok, c) := isFontAvailable fe st.cache family
      let st1 := { st with cache := c }
      if ok then { st1 with chosen := some family, forced := true }
      else stage5Pass2 fe rest st1

/-- `resolveFamily` (src/content.js lines 666-793): the five evidence
stages followed by the reality check and alias mapping.  Returns the
resolved family name, the final availability cache, and the
`usedForcedMode` contribution of stages 4-5. -/
def resolveFamily (fe : FontEnv) (se : StyleEnv) (startEl : Nat) (cache : Cache) :
    String × Cache × Bool :=
  let st0 : ResolveState :=
    { seen := [], firstAlias := none, firstGeneric := none, chosen := none,
      allDeclared := [], cache := cache, forced := false }
  let st1 := stage1Go fe se 8 (some startEl) st0
  let st1 := scanList fe st1 (parseFamilies se.bodyFontFamily)
  let st1 := scanList fe st1 (parseFamilies se.rootFontFamily)
  let st2 := if st1.chosen.isNone then scanList fe st1 (findCSSVariableFonts se startEl) else st1
  let st3 := if st2.chosen.isNone then scanList fe st2 (findInlineStyleFonts se startEl) else st2
  let st4 :=
    if st3.chosen.isNone then
      let lf := getLoadedWebFonts fe
      let a := stage4Pass1 fe lf st3
      if a.chosen.isNone then stage4Pass2 fe lf a else a
    else st3
  let st5 :=
    if st4.chosen.isNone then
      let fam := getFontFaceFamilies se
      let a := stage5Pass1 fe fam st4
      if a.chosen.isNone then stage5Pass2 fe fam a else a
    else st4
  match st5.chosen with
  | some chosen =>
      let confirmed := fe.hasFontsCheck &&
        (fe.fontsCheck ("16px \"" ++ chosen ++ "\"")
          || fe.fontsCheck ("12px \"" ++ chosen ++ "\""))
      let sysHit :=
        if confirmed then none
        else (getSystemFonts fe).find?
          (fun sys => jsToLower chosen != jsToLower sys && isSystemFallback fe chosen sys)
      match sysHit with
      | some sys => (sys, st5.cache, st5.forced)
      | none =>
          if jsToLower chosen = "system-ui" then
            let (m, c) := mapAliasToPlatformFont fe st5.cache "system-ui"
            (m, c, st5.forced)
          else (chosen, st5.cache, st5.forced)
  | none =>
      match st5.firstAlias with
      | some al =>
          let (m, c) := mapAliasToPlatformFont fe st5.cache al
          (m, c, st5.forced)
      | none => ((st5.firstGeneric).getD "system-ui", st5.cache, st5.forced)

/-! ### Target resolution (src/content.js lines 20-236) -/

/-- A bounding client rect.  `DOMRect` guarantees `right = left + width`
and `bottom = top + height`; the relevant code paths compare and multiply
these values, modelled over `Int` (the source uses doubles; the claims
under study are about the comparison structure, not float rounding). -/
structure DomRect where
  left : Int
  top : Int
  width : Int
  height : Int
deriving DecidableEq

/-- The DOM capabilities the target resolver depends on.  Nodes are `Nat`
ids, all of them elements.  `rect` is `getBoundingClientRect`, `none`
modelling a throw (the source wraps it in try/catch); `caretAt` is the
parent element of the caret position at a point (lines 60-70);
`elementsFromPoint`/`elementFromPoint` are the document hit tests;
`shadowInner el x y` is `el.shadowRoot.elementFromPoint(x, y)` with `none`
for no shadow root or a null inner result; `textTagElements` is the
`querySelectorAll("p, span, h1, ..., label")` result of strategy 5 in
document order; `isFsUi` models the own-UI test
`candidate.id.startsWith("fs-") || candidate.closest("#fs-exit")`;
`isBodyOrRoot` models `candidate === document.body || candidate ===
document.documentElement`. -/
structure Dom where
  displayNone : Nat → Bool
  fontSizeZero : Nat → Bool
  tag : Nat → String
  fixedFullscreen : Nat → Bool
  directText : Nat → Bool
  anyText : Nat → Bool
  rect : Nat → Option DomRect
  parent : Nat → Option Nat
  host : Nat → Option Nat
  caretAt : Int → Int → Option Nat
  elementsFromPoint : Int → Int → List Nat
  elementFromPoint : Int → Int → Option Nat
  shadowInner : Nat → Int → Int → Option Nat
  textTagElements : List Nat
  isFsUi : Nat → Bool
  isBodyOrRoot : Nat → Bool

/-- `isTextual` (src/content.js lines 20-25): rendered elements whose
computed display is not "none" and font size is not "0px". -/
def isTextual (d : Dom) (n : Nat) : Bool :=
  !d.displayNone n && !d.fontSizeZero n

/-- The overlay/container tag set (src/content.js line 80). -/
def overlayTags : List String :=
  ["video", "iframe", "canvas", "svg", "img", "picture", "source"]

/-- `isOverlayElement` (src/content.js lines 76-88): media/embed tags and
full-viewport fixed-position containers.  (Its `!el || nodeType !== 1`
guard is vacuous in the model, where every node is an element.) -/
def isOverlay (d : Dom) (n : Nat) : Bool :=
  overlayTags.contains (d.tag n) || d.fixedFullscreen n

/-- `ascend` (src/content.js lines 31-37) on the target-resolver DOM. -/
def ascendD (d : Dom) (n : Nat) : Option Nat :=
  match d.parent n with
  | some p => some p
  | none => d.host n

/-- The conventional text-bearing tag set of `scoreTextElement`
(src/content.js line 130). -/
def textTags : List String :=
  ["p", "span", "h1", "h2", "h3", "h4", "h5", "h6", "a", "li", "td", "th",
   "label", "button", "strong", "em", "b", "i"]

/-- `scoreTextElement` (src/content.js lines 102-137), translated in the
source's order: textual precheck, direct-text/any-text base (else
disqualify), point-containment bonus, area bonus (note the source's
`area > 0 && area < 50000` guard on the +20 branch), text-tag bonus,
and the final overlay disqualification. -/
def scoreTextElement (d : Dom) (el : Nat) (x y : Int) : Int :=
  if !isTextual d el then -1
  else
    match (if d.directText el then some (50 : Int)
           else if d.anyText el then some 10 else none) with
    | none => -1
    | some base =>
        let s1 := base +
          (match d.rect el with
           | some r =>
               if x ≥ r.left && x ≤ r.left + r.width && y ≥ r.top && y ≤ r.top + r.height
               then 30 else 0
           | none => 0)
        let s2 := s1 +
          (match d.rect el with
           | some r =>
               let area := r.width * r.height
               if 0 < area && area < 50000 then 20
               else if area < 200000 then 10 else 0
           | none => 0)
        let s3 := s2 + (if textTags.contains (d.tag el) then 15 else 0)
        if isOverlay d el then -1 else s3

/-- The scoring rule exactly as claim C6 states it: identical to the
source's except that the +20 bonus requires only `area < 50000`, with no
positivity guard.  (The textual precheck and the base/overlay
disqualifications are common to claim and source.) -/
def scoreClaimStated (d : Dom) (el : Nat) (x y : Int) : Int :=
  if !isTextual d el then -1
  else if !d.directText el && !d.anyText el then -1
  else if isOverlay d el then -1
  else
    (if d.directText el then (50 : Int) else 10)
    + (match d.rect el with
       | some r =>
           if x ≥ r.left && x ≤ r.left + r.width && y ≥ r.top && y ≤ r.top + r.height
           then 30 else 0
       | none => 0)
    + (match d.rect el with
       | some r =>
           if r.width * r.height < 50000 then 20
           else if r.width * r.height < 200000 then 10 else 0
       | none => 0)
    + (if textTags.contains (d.tag el) then 15 else 0)

/-- The scoring rule as amended: the +20 bonus requires the area to be
strictly positive and under 50000; a zero-area element falls to the +10
branch. -/
def scoreClaimAmended (d : Dom) (el : Nat) (x y : Int) : Int :=
  if !isTextual d el then -1
  else if !d.directText el && !d.anyText el then -1
  else if isOverlay d el then -1
  else
    (if d.directText el then (50 : Int) else 10)
    + (match d.rect el with
       | some r =>
           if x ≥ r.left && x ≤ r.left + r.width && y ≥ r.top && y ≤ r.top + r.height
           then 30 else 0
       | none => 0)
    + (match d.rect el with
       | some r =>
           if 0 < r.width * r.height && r.width * r.height < 50000 then 20
           else if r.width * r.height < 200000 then 10 else 0
       | none => 0)
    + (if textTags.contains (d.tag el) then 15 else 0)

/-- The strategy-1 (and strategy-4 second half) ascent loop
(src/content.js lines 144-148, 192-199): up to 8 nodes, returning the
first visible element with direct text that is not an overlay. -/
def strat1Loop (d : Dom) : Nat → Option Nat → Option Nat
  | 0, _ => none
  | _, none => none
  | Nat.succ k, some e =>
      if isTextual d e && d.directText e && !isOverlay d e then some e
      else strat1Loop d k (ascendD d e)

/-- Strategy 1 of `findTextElement` (src/content.js lines 143-148). -/
def strat1 (d : Dom) (start : Option Nat) : Option Nat :=
  strat1Loop d 8 start

/-- Strategy 2, caret-based detection (src/content.js lines 150-157). -/
def strat2 (d : Dom) (x y : Int) : Option Nat :=
  match d.caretAt x y with
  | some e => if isTextual d e && !isOverlay d e then some e else none
  | none => none

/-- The candidates considered by strategy 3 (src/content.js lines
160-168): every element stacked at the point, minus the script's own UI
and the page body/root. -/
def strat3Candidates (d : Dom) (x y : Int) : List Nat :=
  (d.elementsFromPoint x y).filter (fun c => !d.isFsUi c && !d.isBodyOrRoot c)

/-- The best-candidate accumulator step of strategy 3 (src/content.js
lines 170-175): strict improvement over the running best score. -/
def strat3Step (d : Dom) (x y : Int) (acc : Option Nat × Int) (c : Nat) : Option Nat × Int :=
  let sc := scoreTextElement d c x y
  if sc > acc.2 then (some c, sc) else acc

/-- Strategy 3 of `findTextElement` (src/content.js lines 159-181): score
all stacked candidates and return the best if its score is positive. -/
def strat3 (d : Dom) (x y : Int) : Option Nat :=
  match (strat3Candidates d x y).foldl (strat3Step d x y) (none, -1) with
  | (some e, best2) => if best2 > 0 then some e else none
  | (none, _) => none

/-- The shadow-piercing loop of `deepElementFromPoint` (src/content.js
lines 40-57), bounded to 10 iterations. -/
def deepLoop (d : Dom) (x y : Int) : Nat → Nat → Option Nat
  | 0, e => some e
  | Nat.succ k, e =>
      match d.shadowInner e x y with
      | none => some e
      | some inner => if inner = e then some e else deepLoop d x y k inner

/-- `deepElementFromPoint` (src/content.js lines 40-57). -/
def deepElementFromPoint (d : Dom) (x y : Int) : Option Nat :=
  match d.elementFromPoint x y with
  | none => none
  | some e => deepLoop d x y 10 e

/-- Strategy 4 of `findTextElement` (src/content.js lines 183-200):
accept the deep-pierced element directly if it is textual with any text
and not an overlay, else ascend from it with the strategy-1 rule. -/
def strat4 (d : Dom) (x y : Int) : Option Nat :=
  match deepElementFromPoint d x y with
  | none => none
  | some de =>
      if isTextual d de && d.anyText de && !isOverlay d de then some de
      else strat1Loop d 8 (some de)

/-- The nearest-candidate accumulator of strategy 5 (src/content.js lines
208-220).  The source compares `Math.hypot(x - cx, y - cy) < closest` and
`< 200` with centers at `left + width/2`; the model works with four times
the squared distance (`(2x - (2 left + width))^2 + ...`), an
order-faithful integer encoding of the same comparisons, with the radius
threshold `(2*200)^2 = 160000`.  The accumulator starts at 160000 so that
the first acceptance is exactly `dist < 200`. -/
def strat5Step (d : Dom) (x y : Int) (acc : Option Nat × Int) (c : Nat) : Option Nat × Int :=
  if !(isTextual d c && d.anyText c) then acc
  else
    match d.rect c with
    | none => acc
    | some r =>
        let dx := 2 * x - (2 * r.left + r.width)
        let dy := 2 * y - (2 * r.top + r.height)
        let dist2 := dx * dx + dy * dy
        if dist2 < acc.2 && dist2 < 160000 then (some c, dist2) else acc

/-- Strategy 5 of `findTextElement` (src/content.js lines 202-226):
nearest conventional text element within a 200px radius. -/
def strat5 (d : Dom) (x y : Int) : Option Nat :=
  (d.textTagElements.foldl (strat5Step d x y) (none, 160000)).1

/-- The final relaxed ascent of `findTextElement` (src/content.js lines
228-233): up to 8 nodes from the original start, accepting any textual
element with any text (direct or nested), with no overlay check. -/
def fallbackLoop (d : Dom) : Nat → Option Nat → Option Nat
  | 0, _ => none
  | _, none => none
  | Nat.succ k, some e =>
      if isTextual d e && d.anyText e then some e
      else fallbackLoop d k (ascendD d e)

/-- `findTextElement` (src/content.js lines 140-236): the five strategies
in order, then the relaxed ascent, then the original start.  The second
component is `usedForcedMode`, reset at entry and set exactly by the
returns of strategies 2-5.  The source guards strategies 2-5 with
`typeof x === "number"`; in the model the coordinates are always numbers
(the claims quantify over screen points), so the guards are true. -/
def findTextElement (d : Dom) (start : Option Nat) (x y : Int) : Option Nat × Bool :=
  match strat1 d start with
  | some e => (some e, false)
  | none =>
    match strat2 d x y with
    | some e => (some e, true)
    | none =>
      match strat3 d x y with
      | some e => (some e, true)
      | none =>
        match strat4 d x y with
        | some e => (some e, true)
        | none =>
          match strat5 d x y with
          | some e => (some e, true)
          | none =>
            match fallbackLoop d 8 start with
            | some e => (some e, false)
            | none => (start, false)

/-! ### Concrete test environments -/

/-- A measurer for which every family — the probe placeholder `_fs_fake_`
included — renders identically (box `(length * size, size)`): every font
is absent from rendering, while the wide and narrow baselines still
differ, as they do in any real browser. -/
def mLen : String → Nat → String → String → Nat × Nat :=
  fun t s _ _ => (t.length * s, s)

/-- Environment for the canvas-probe analysis: no font registry hits, no
allowlist platform, and the family-blind measurer `mLen`; the font
"ghost" is absent from every evidence source. -/
def feBug : FontEnv :=
  { measure := mLen
    hasFontsCheck := true
    fontsCheck := fun _ => false
    hasFontsForEach := true
    documentFonts := []
    ua := "" }

/-- Environment for the stage-4 registry-preference analysis: the element
declares `-apple-system, MissingFont`; the loaded-font registry holds
`OtherFont` first and the declared `-apple-system` second, both loaded and
both reported available by `document.fonts.check`; the measurer is
constant so the canvas probe never fires. -/
def feC5 : FontEnv :=
  { measure := fun _ _ _ _ => (0, 0)
    hasFontsCheck := true
    fontsCheck := fun s => s = "16px \"OtherFont\"" || s = "16px \"-apple-system\""
    hasFontsForEach := true
    documentFonts :=
      [{ family := "OtherFont", status := "loaded", weight := "400", style := "normal" },
       { family := "-apple-system", status := "loaded", weight := "400", style := "normal" }]
    ua := "" }

/-- Style side of the stage-4 analysis environment: a single element 0
with no ancestors and no other evidence sources. -/
def seC5 : StyleEnv :=
  { fontFamily := fun _ => "-apple-system, MissingFont"
    parent := fun _ => none
    host := fun _ => none
    bodyFontFamily := ""
    rootFontFamily := ""
    cssVar := fun _ _ => ""
    inlineFontFamily := fun _ => ""
    fontFaceFamilies := [] }

/-- Environment for the empty-normal-form analysis: the engine reports
the quoted empty family (`16px ""`) as loaded; nothing else resolves. -/
def envE : FontEnv :=
  { measure := fun _ _ _ _ => (0, 0)
    hasFontsCheck := true
    fontsCheck := fun s => s = ("16px \"" ++ "" ++ "\"")
    hasFontsForEach := false
    documentFonts := []
    ua := "" }

/-- The two-character input consisting of a pair of single quotes. -/
def qq : String := squoteS ++ squoteS

/-- The input `"Arial"` (with literal double quotes). -/
def dqArial : String := "\"Arial\""

/-- DOM with a single element 0 carrying no text anywhere and nothing at
any point: every strategy of the target resolver fails and even the
relaxed ascent finds nothing. -/
def dC2 : Dom :=
  { displayNone := fun _ => false
    fontSizeZero := fun _ => false
    tag := fun _ => "div"
    fixedFullscreen := fun _ => false
    directText := fun _ => false
    anyText := fun _ => false
    rect := fun _ => none
    parent := fun _ => none
    host := fun _ => none
    caretAt := fun _ _ => none
    elementsFromPoint := fun _ _ => []
    elementFromPoint := fun _ _ => none
    shadowInner := fun _ _ _ => none
    textTagElements := []
    isFsUi := fun _ => false
    isBodyOrRoot := fun _ => false }

/-- DOM with element 0 (no text) whose parent element 1 has nested text
but no direct text; all five point strategies fail, and the relaxed
ascent finds element 1. -/
def dC3 : Dom :=
  { displayNone := fun _ => false
    fontSizeZero := fun _ => false
    tag := fun _ => "div"
    fixedFullscreen := fun _ => false
    directText := fun _ => false
    anyText := fun n => n = 1
    rect := fun _ => none
    parent := fun n => if n = 0 then some 1 else none
    host := fun _ => none
    caretAt := fun _ _ => none
    elementsFromPoint := fun _ _ => []
    elementFromPoint := fun _ _ => none
    shadowInner := fun _ _ _ => none
    textTagElements := []
    isFsUi := fun _ => false
    isBodyOrRoot := fun _ => false }

/-- DOM whose hit test at the probe point returns the paragraph element 7
with direct text and a small box containing the point: strategy 3
succeeds with score 115. -/
def dW : Dom :=
  { displayNone := fun _ => false
    fontSizeZero := fun _ => false
    tag := fun _ => "p"
    fixedFullscreen := fun _ => false
    directText := fun _ => true
    anyText := fun _ => true
    rect := fun _ => some { left := 0, top := 0, width := 10, height := 10 }
    parent := fun _ => none
    host := fun _ => none
    caretAt := fun _ _ => none
    elementsFromPoint := fun _ _ => [7]
    elementFromPoint := fun _ _ => none
    shadowInner := fun _ _ _ => none
    textTagElements := []
    isFsUi := fun _ => false
    isBodyOrRoot := fun _ => false }

/-- DOM with a zero-area paragraph element 0 with direct text whose rect
degenerates to the point itself: the source scores it 105 (the +10
area branch), the claim's stated rule scores it 115 (+20 for area under
50000). -/
def dZ : Dom :=
  { displayNone := fun _ => false
    fontSizeZero := fun _ => false
    tag := fun _ => "p"
    fixedFullscreen := fun _ => false
    directText := fun _ => true
    anyText := fun _ => true
    rect := fun _ => some { left := 0, top := 0, width := 0, height := 0 }
    parent := fun _ => none
    host := fun _ => none
    caretAt := fun _ _ => none
    elementsFromPoint := fun _ _ => []
    elementFromPoint := fun _ _ => none
    shadowInner := fun _ _ _ => none
    textTagElements := []
    isFsUi := fun _ => false
    isBodyOrRoot := fun _ => false }

/-- The resolver state after stage 1 of the stage-4 analysis environment:
both declared tokens recorded, the alias remembered, nothing chosen. -/
def stC5 : ResolveState :=
  { seen := ["-apple-system", "missingfont"]
    firstAlias := some "-apple-system"
    firstGeneric := none
    chosen := none
    allDeclared := ["-apple-system", "MissingFont"]
    cache := [("missingfont", false)]
    forced := false }

/-! ### Theorems -/

/-- Helper: the bucketed weight is always a multiple of 100 in
[100, 900]. -/
lemma bucketWeight_bounds (n : Int) :
    100 ≤ bucketWeight n ∧ bucketWeight n ≤ 900 ∧ bucketWeight n % 100 = 0 := by
  unfold bucketWeight
  refine ⟨le_min (by norm_num) (le_max_left _ _), min_le_left _ _, ?_⟩
  rcases le_total ((n + 50).fdiv 100 * 100) 100 with h | h
  · rw [max_eq_left h, min_eq_right (by norm_num)]
    decide
  · rw [max_eq_right h]
    rcases le_total ((n + 50).fdiv 100 * 100) 900 with h2 | h2
    · rw [min_eq_right h2]
      exact Int.mul_emod_left _ _
    · rw [min_eq_left h2]
      decide

/-- Claim C8: `formatWeight(550)` buckets to 600 and is labeled
"Semi Bold"; `formatWeight("bold")` yields 700 labeled "Bold";
`formatWeight(50)` clamps to 100 labeled "Thin"; and in general the label
is the `WEIGHT_NAMES` entry of the weight bucketed to the nearest
multiple of 100 and clamped to [100, 900]. -/
theorem weight_bucketing :
    formatWeight (CssWeight.num 550) = "550 — Semi Bold"
    ∧ bucketWeight (normalizeWeightNumber (CssWeight.num 550)) = 600
    ∧ formatWeight (CssWeight.str "bold") = "700 — Bold"
    ∧ normalizeWeightNumber (CssWeight.str "bold") = 700
    ∧ formatWeight (CssWeight.num 50) = "100 — Thin"
    ∧ normalizeWeightNumber (CssWeight.num 50) = 100
    ∧ (∀ w : CssWeight,
        100 ≤ bucketWeight (normalizeWeightNumber w)
        ∧ bucketWeight (normalizeWeightNumber w) ≤ 900
        ∧ bucketWeight (normalizeWeightNumber w) % 100 = 0
        ∧ formatWeight w =
            toString (normalizeWeightNumber w) ++ " — "
              ++ weightName (bucketWeight (normalizeWeightNumber w))) := by
  refine ⟨by decide, by decide, by decide, by decide, by decide, by decide, ?_⟩
  intro w
  obtain ⟨h1, h2, h3⟩ := bucketWeight_bounds (normalizeWeightNumber w)
  exact ⟨h1, h2, h3, rfl⟩

/-- Counterexample to claim C4 as stated: running the content script
while a session is active (active flag set, one session installed) stops
the prior session and returns; afterwards no session is active, not
exactly one. -/
theorem begin_session_cex :
    scriptRun { active := true, sessions := 1 } = { active := false, sessions := 0 } := by
  decide

/-- Claim C4 as amended: the activation guard is a toggle, not an
idempotent restart.  Running the script flips the active flag; starting
from a consistent state (as many installed sessions as the flag says) it
leaves a consistent state, so sessions never stack — but a run while
active ends with zero active sessions, not one. -/
theorem session_toggle :
    (∀ s : SessionState, (scriptRun s).active = !s.active)
    ∧ (∀ s : SessionState, s.sessions = (if s.active then 1 else 0) →
        (scriptRun s).sessions = (if (scriptRun s).active then 1 else 0)) := by
  constructor
  · intro s
    unfold scriptRun
    cases h : s.active <;> simp [h]
  · intro s hs
    unfold scriptRun
    cases h : s.active <;> simp [h] at hs ⊢ <;> omega

/-- Witness for `session_toggle`: the consistent active state. -/
theorem session_toggle_witness :
    (scriptRun { active := true, sessions := 1 }).sessions
      = (if (scriptRun { active := true, sessions := 1 }).active then 1 else 0) :=
  session_toggle.2 { active := true, sessions := 1 } rfl

/-- Claim C7: the color resolver only delegates to the engine's own
pixel sampling, so for any environment whose sampler normalizes the two
spellings of pure red to the same bytes — as CSS requires — both resolve
to exactly (255, 0, 0, 255), and in general equal samples give equal
resolver outputs. -/
theorem color_roundtrip (env : ColorEnv)
    (h1 : env.fill "#FF0000" = { r := 255, g := 0, b := 0, a := 255 })
    (h2 : env.fill "rgb(255,0,0)" = { r := 255, g := 0, b := 0, a := 255 }) :
    resolveColor env "#FF0000" = resolveColor env "rgb(255,0,0)"
    ∧ resolveColor env "#FF0000" = { r := 255, g := 0, b := 0, a := 255 }
    ∧ ∀ c1 c2, env.fill c1 = env.fill c2 → resolveColor env c1 = resolveColor env c2 :=
  ⟨h1.trans h2.symm, h1, fun _ _ h => h⟩

/-- Witness for `color_roundtrip`: the concrete CSS-conformant sampler. -/
theorem color_roundtrip_witness :
    resolveColor cssHostEnv "#FF0000" = resolveColor cssHostEnv "rgb(255,0,0)"
    ∧ resolveColor cssHostEnv "#FF0000" = { r := 255, g := 0, b := 0, a := 255 } :=
  ⟨(color_roundtrip cssHostEnv (by decide) (by decide)).1,
   (color_roundtrip cssHostEnv (by decide) (by decide)).2.1⟩

/-- Claim C1, evaluated at the failing input: under a measurer where the
candidate "ghost" renders exactly like the placeholder `_fs_fake_` (a
font known not to exist) and no other evidence source knows it, the
source's probe still judges it AVAILABLE — because `differsAll` compares
each box against both the wide and the narrow baseline with a
disjunction, satisfied whenever the two baselines differ from each other.
The spec-stated probe judges the same input unavailable, and the source
probe even judges its own placeholder available. -/
theorem canvas_probe_bug_eval :
    (∀ t s f, feBug.measure t s "ghost" f = feBug.measure t s "_fs_fake_" f)
    ∧ (isFontAvailable feBug [] "ghost").1 = true
    ∧ specCanvasAvailable feBug "ghost" = false
    ∧ canvasAvailable feBug "_fs_fake_" = true := by
  refine ⟨fun t s f => rfl, by decide, by decide, by decide⟩

/-- Helper: a nonempty raw name always ends up cached under its
normalized key, with the returned verdict. -/
lemma isFontAvailable_caches (fe : FontEnv) (c : Cache) (raw : String) (h : raw ≠ "") :
    cacheGet (isFontAvailable fe c raw).2 (jsToLower (stripQuotes (jsTrim raw)))
      = some (isFontAvailable fe c raw).1 := by
  unfold isFontAvailable
  rw [if_neg h]
  cases hc : cacheGet c (jsToLower (stripQuotes (jsTrim raw))) with
  | some v => simp [hc]
  | none => simp [hc, cacheGet]

/-- Helper: a cache hit is returned as-is, cache untouched. -/
lemma isFontAvailable_hit (fe : FontEnv) (c : Cache) (raw : String) (h : raw ≠ "") (v : Bool)
    (hv : cacheGet c (jsToLower (stripQuotes (jsTrim raw))) = some v) :
    isFontAvailable fe c raw = (v, c) := by
  unfold isFontAvailable
  rw [if_neg h]
  simp [hv]

/-- Claim C9: repeated `isFontAvailable` calls for the same family name
within one session agree — the second call returns the first call's
verdict from the cache and leaves the cache untouched (no
re-measurement). -/
theorem oracle_idempotent :
    ∀ (fe : FontEnv) (c : Cache) (name : String),
      (isFontAvailable fe (isFontAvailable fe c name).2 name).1 = (isFontAvailable fe c name).1
      ∧ (isFontAvailable fe (isFontAvailable fe c name).2 name).2 = (isFontAvailable fe c name).2 := by
  intro fe c name
  by_cases h : name = ""
  · subst h
    constructor <;> rfl
  · have hcache := isFontAvailable_caches fe c name h
    have h2 := isFontAvailable_hit fe (isFontAvailable fe c name).2 name h _ hcache
    rw [h2]
    exact ⟨rfl, rfl⟩

/-- Claim C10 as amended: two inputs with the same NON-EMPTY normal form
(trim, strip one leading and one trailing quote character, lowercase —
exactly the cache-key computation) receive the same verdict within a
session: the second call hits the cache entry written by the first. -/
theorem normal_form_verdict :
    ∀ (fe : FontEnv) (c : Cache) (a b : String),
      claimNormalForm a = claimNormalForm b →
      claimNormalForm a ≠ "" →
      (isFontAvailable fe (isFontAvailable fe c a).2 b).1 = (isFontAvailable fe c a).1 := by
  intro fe c a b hab hne
  have hempty : claimNormalForm "" = "" := by decide
  have ha : a ≠ "" := by
    intro h
    rw [h] at hne
    exact hne hempty
  have hb : b ≠ "" := by
    intro h
    rw [h, hempty] at hab
    exact hne hab
  have hcache := isFontAvailable_caches fe c a ha
  have hkey : jsToLower (stripQuotes (jsTrim b)) = jsToLower (stripQuotes (jsTrim a)) := hab.symm
  have h2 := isFontAvailable_hit fe (isFontAvailable fe c a).2 b hb _ (by rw [hkey]; exact hcache)
  rw [h2]

/-- Witness for `normal_form_verdict`: the quoted and unquoted spellings
of Arial agree. -/
theorem normal_form_verdict_witness :
    (isFontAvailable envE (isFontAvailable envE [] dqArial).2 "arial").1
      = (isFontAvailable envE [] dqArial).1 :=
  normal_form_verdict envE [] dqArial "arial" (by decide) (by decide)

/-- Counterexample to claim C10 as stated: the empty string and a pair of
bare single quotes share the normal form "" — but the empty raw name
short-circuits to false without consulting the engine, while the quoted
empty name is probed (here `document.fonts.check` reports the quoted
empty family as loaded) and judged available. -/
theorem normal_form_cex :
    claimNormalForm "" = claimNormalForm qq
    ∧ (isFontAvailable envE [] "").1 = false
    ∧ (isFontAvailable envE (isFontAvailable envE [] "").2 qq).1 = true := by
  refine ⟨by decide, rfl, by decide⟩

/-- Claim C2 as amended: the target resolver's forced flag is true
exactly when strategy 1 fails and one of strategies 2-5 succeeds; it
stays false both on the strategy-1 path and on the exhaustion path
(relaxed ascent or original target). -/
theorem forced_flag_characterization :
    ∀ (d : Dom) (start : Option Nat) (x y : Int),
      (findTextElement d start x y).2 =
        ((strat1 d start).isNone
          && ((strat2 d x y).isSome || (strat3 d x y).isSome
              || (strat4 d x y).isSome || (strat5 d x y).isSome)) := by
  intro d start x y
  unfold findTextElement
  cases h1 : strat1 d start <;>
    cases h2 : strat2 d x y <;>
      cases h3 : strat3 d x y <;>
        cases h4 : strat4 d x y <;>
          cases h5 : strat5 d x y <;>
            simp
  cases h6 : fallbackLoop d 8 start <;> simp

/-- Counterexample to claim C2 as stated: in a DOM where the initial
target has no text at all and nothing is found at the point, every
strategy fails, the resolver returns the original target — yet the
forced flag is false although strategy 1 did not produce the result. -/
theorem forced_flag_cex :
    strat1 dC2 (some 0) = none
    ∧ findTextElement dC2 (some 0) 5 5 = (some 0, false) := by
  decide

/-- Claim C3 as amended: for any DOM, any element start and any point,
the resolver returns a node (never none); and when all five strategies
fail it returns the first node of a final relaxed ascent from the start
(a textual ancestor with any text), or the original start itself when
that too finds nothing — not necessarily the original start. -/
theorem resolver_total_and_fallback :
    ∀ (d : Dom) (s : Nat) (x y : Int),
      ((findTextElement d (some s) x y).1.isSome = true)
      ∧ (strat1 d (some s) = none → strat2 d x y = none → strat3 d x y = none →
          strat4 d x y = none → strat5 d x y = none →
          findTextElement d (some s) x y
            = (some ((fallbackLoop d 8 (some s)).getD s), false)) := by
  intro d s x y
  constructor
  · unfold findTextElement
    cases h1 : strat1 d (some s) <;>
      cases h2 : strat2 d x y <;>
        cases h3 : strat3 d x y <;>
          cases h4 : strat4 d x y <;>
            cases h5 : strat5 d x y <;>
              simp
    cases h6 : fallbackLoop d 8 (some s) <;> simp
  · intro h1 h2 h3 h4 h5
    unfold findTextElement
    rw [h1, h2, h3, h4, h5]
    cases h6 : fallbackLoop d 8 (some s) <;> simp [h6]

/-- Witness for `resolver_total_and_fallback`: the two-node DOM where all
five strategies fail. -/
theorem resolver_total_and_fallback_witness :
    ((findTextElement dC3 (some 0) 5 5).1.isSome = true)
    ∧ findTextElement dC3 (some 0) 5 5
        = (some ((fallbackLoop dC3 8 (some 0)).getD 0), false) :=
  ⟨(resolver_total_and_fallback dC3 0 5 5).1,
   (resolver_total_and_fallback dC3 0 5 5).2 (by decide) (by decide) (by decide)
     (by decide) (by decide)⟩

/-- Counterexample to claim C3 as stated: all five strategies fail, yet
the resolver returns the parent element 1 (found by the relaxed ascent),
not the original initial target 0. -/
theorem resolver_fallback_cex :
    strat1 dC3 (some 0) = none
    ∧ strat2 dC3 5 5 = none
    ∧ strat3 dC3 5 5 = none
    ∧ strat4 dC3 5 5 = none
    ∧ strat5 dC3 5 5 = none
    ∧ (findTextElement dC3 (some 0) 5 5).1 = some 1
    ∧ (some 1 : Option Nat) ≠ some 0 := by
  decide

/-- Helper: the source's scoring function agrees everywhere with the
amended spec formulation. -/
lemma score_eq_amended (d : Dom) (el : Nat) (x y : Int) :
    scoreTextElement d el x y = scoreClaimAmended d el x y := by
  unfold scoreTextElement scoreClaimAmended
  cases ht : isTextual d el
  · simp
  · cases hd : d.directText el <;>
      cases ha2 : d.anyText el <;>
        cases ho : isOverlay d el <;>
          simp [hd, ha2, ho]

/-- Helper: invariant of the strategy-3 best-candidate fold — the stored
score is the running element's score, scores never decrease, and every
processed candidate's score is bounded by the result. -/
lemma strat3_fold_inv (d : Dom) (x y : Int) :
    ∀ (l : List Nat) (acc : Option Nat × Int),
      (∀ e, acc.1 = some e → scoreTextElement d e x y = acc.2) →
      ((∀ e, (l.foldl (strat3Step d x y) acc).1 = some e →
          scoreTextElement d e x y = (l.foldl (strat3Step d x y) acc).2)
       ∧ acc.2 ≤ (l.foldl (strat3Step d x y) acc).2
       ∧ ∀ c ∈ l, scoreTextElement d c x y ≤ (l.foldl (strat3Step d x y) acc).2) := by
  intro l
  induction l with
  | nil =>
      intro acc hacc
      exact ⟨hacc, le_refl _, by simp⟩
  | cons c rest ih =>
      intro acc hacc
      simp only [List.foldl_cons]
      by_cases hc : scoreTextElement d c x y > acc.2
      · have hstep : strat3Step d x y acc c = (some c, scoreTextElement d c x y) := by
          unfold strat3Step
          rw [if_pos hc]
        rw [hstep]
        obtain ⟨ha, hb, hc2⟩ := ih (some c, scoreTextElement d c x y)
          (by intro e he; cases he; rfl)
        refine ⟨ha, le_trans (le_of_lt hc) hb, ?_⟩
        intro c2 hmem
        rcases List.mem_cons.mp hmem with h | h
        · subst h
          exact hb
        · exact hc2 c2 h
      · have hstep : strat3Step d x y acc c = acc := by
          unfold strat3Step
          rw [if_neg hc]
        rw [hstep]
        obtain ⟨ha, hb, hc2⟩ := ih acc hacc
        refine ⟨ha, hb, ?_⟩
        intro c2 hmem
        rcases List.mem_cons.mp hmem with h | h
        · subst h
          exact le_trans (not_lt.mp hc) hb
        · exact hc2 c2 h

/-- Claim C6 as amended: the source's strategy-3 score is exactly the
claimed formula with the +20 area bonus additionally requiring a
strictly positive area (a zero-area element gets +10); and whenever
strategy 3 returns a candidate, that candidate's score is positive and
maximal among all stacked candidates considered. -/
theorem score_spec_equiv_and_best :
    (∀ (d : Dom) (el : Nat) (x y : Int),
        scoreTextElement d el x y = scoreClaimAmended d el x y)
    ∧ (∀ (d : Dom) (x y : Int) (e : Nat), strat3 d x y = some e →
        0 < scoreTextElement d e x y
        ∧ ∀ c ∈ strat3Candidates d x y,
            scoreTextElement d c x y ≤ scoreTextElement d e x y) := by
  constructor
  · exact score_eq_amended
  · intro d x y e he
    obtain ⟨inv1, _, inv3⟩ :=
      strat3_fold_inv d x y (strat3Candidates d x y) (none, -1) (by intro e2 h; cases h)
    unfold strat3 at he
    rcases hfold : (strat3Candidates d x y).foldl (strat3Step d x y) (none, -1) with ⟨b1, b2⟩
    rw [hfold] at he
    cases b1 with
    | none =>
        dsimp only at he
        cases he
    | some e2 =>
        dsimp only at he
        by_cases hpos : b2 > 0
        · rw [if_pos hpos] at he
          cases he
          have hb1 : ((strat3Candidates d x y).foldl (strat3Step d x y) (none, -1)).1 = some e := by
            rw [hfold]
          have hscore := inv1 e hb1
          have hb2 : ((strat3Candidates d x y).foldl (strat3Step d x y) (none, -1)).2 = b2 := by
            rw [hfold]
          rw [hb2] at hscore
          constructor
          · rw [hscore]
            exact hpos
          · intro c hc
            rw [hscore]
            have := inv3 c hc
            rw [hb2] at this
            exact this
        · rw [if_neg hpos] at he
          cases he

/-- Witness for `score_spec_equiv_and_best`: strategy 3 picks element 7
scoring 115 in the paragraph DOM. -/
theorem score_spec_equiv_and_best_witness :
    0 < scoreTextElement dW 7 5 5
    ∧ ∀ c ∈ strat3Candidates dW 5 5, scoreTextElement dW c 5 5 ≤ scoreTextElement dW 7 5 5 :=
  score_spec_equiv_and_best.2 dW 5 5 7 (by decide)

/-- Counterexample to claim C6 as stated: a zero-area paragraph with
direct text whose rect degenerates to the probed point scores 105 in the
source (`area > 0 && area < 50000` fails, the `area < 200000` branch
gives +10) but 115 under the claim's stated rule (+20 for any area under
50000). -/
theorem score_area_cex :
    scoreTextElement dZ 0 0 0 = 105
    ∧ scoreClaimStated dZ 0 0 0 = 115
    ∧ (105 : Int) ≠ 115 := by
  decide

/-- Claim C5, settled against the code.  First part: concrete evaluation
at the failing input — the element declares `-apple-system, MissingFont`;
the registry holds the loaded, available `OtherFont` and the loaded,
available, DECLARED `-apple-system` — yet the cascade answers
`OtherFont` (the first available registry entry, forced), not the
declared entry the claim requires it to prefer.  Second part: the
declared-preference pass is dead code — whenever the seen-set and the
declared tokens agree up to lowercasing (which the scan guarantees: every
recorded declared token is also marked seen), pass 1 can never select,
because its guard demands a name simultaneously unseen and declared. -/
theorem stage4_preference_dead_eval :
    ((resolveFamily feC5 seC5 0 []).1 = "OtherFont"
      ∧ (resolveFamily feC5 seC5 0 []).2.2 = true
      ∧ parseFamilies (seC5.fontFamily 0) = ["-apple-system", "MissingFont"]
      ∧ (getLoadedWebFonts feC5).map (fun f => f.family) = ["OtherFont", "-apple-system"]
      ∧ (isFontAvailable feC5 [] "-apple-system").1 = true
      ∧ ((parseFamilies (seC5.fontFamily 0)).map jsToLower).contains "-apple-system" = true
      ∧ ((parseFamilies (seC5.fontFamily 0)).map jsToLower).contains "otherfont" = false)
    ∧ ∀ (fe : FontEnv) (l : List LoadedFontInfo) (st : ResolveState),
        (∀ low, st.seen.contains low = (st.allDeclared.map jsToLower).contains low) →
        (stage4Pass1 fe l st).chosen = st.chosen := by
  constructor
  · exact ⟨by decide, by decide, by decide, by decide, by decide, by decide, by decide⟩
  · intro fe l
    induction l with
    | nil =>
        intro st hinv
        rfl
    | cons fi rest ih =>
        intro st hinv
        unfold stage4Pass1
        by_cases hseen : st.seen.contains (jsToLower fi.family) = true
        · rw [if_pos hseen]
          exact ih st hinv
        · rw [if_neg hseen]
          have hs : st.seen.contains (jsToLower fi.family) = false := by
            simpa using hseen
          have hdecl : (st.allDeclared.map jsToLower).contains (jsToLower fi.family) = false := by
            rw [← hinv]
            exact hs
          rcases hcall : isFontAvailable fe st.cache fi.family with ⟨ok, c⟩
          dsimp only
          have hcond : (ok && (List.map jsToLower st.allDeclared).contains (jsToLower fi.family))
              = false := by
            rw [hdecl, Bool.and_false]
          rw [if_neg (by rw [hcond]; exact Bool.false_ne_true)]
          exact ih { st with cache := c } (by simpa using hinv)

/-- Witness for `stage4_preference_dead_eval`: the post-stage-1 state of
the analysis environment satisfies the seen/declared agreement, so the
declared-preference pass selects nothing over the whole registry. -/
theorem stage4_preference_dead_eval_witness :
    (stage4Pass1 feC5 (getLoadedWebFonts feC5) stC5).chosen = stC5.chosen :=
  stage4_preference_dead_eval.2 feC5 (getLoadedWebFonts feC5) stC5 (fun _ => rfl)

/-- Helper: membership in a one-element extension. -/
lemma contains_append_single (l : List String) (x a : String) :
    (l ++ [x]).contains a = (l.contains a || decide (a = x)) := by
  simp [List.contains_eq_any_beq, List.any_append]

/-- Helper: `scanStep` preserves the agreement between the seen-set and
the lowercased declared tokens — every recorded declared token is also
marked seen, and vice versa (the hypothesis of the dead-pass theorem). -/
lemma scanStep_inv (fe : FontEnv) (st : ResolveState) (raw : String)
    (hinv : ∀ low, st.seen.contains low = (st.allDeclared.map jsToLower).contains low) :
    ∀ low, (scanStep fe st raw).seen.contains low
      = ((scanStep fe st raw).allDeclared.map jsToLower).contains low := by
  intro low
  unfold scanStep
  by_cases h0 : stripQuotes (jsTrim raw) = ""
  · rw [if_pos h0]
    exact hinv low
  · rw [if_neg h0]
    dsimp only
    by_cases hseen : st.seen.contains (jsToLower (stripQuotes (jsTrim raw))) = true
    · rw [if_pos hseen]
      rw [List.map_append, List.map_cons, List.map_nil, contains_append_single, hinv low]
      by_cases heq : low = jsToLower (stripQuotes (jsTrim raw))
      · rw [hinv] at hseen
        rw [heq, hseen, Bool.true_or]
      · have hd : decide (low = jsToLower (stripQuotes (jsTrim raw))) = false := by
          simp [heq]
        rw [hd, Bool.or_false]
    · rw [if_neg hseen]
      have hgoal : (st.seen ++ [jsToLower (stripQuotes (jsTrim raw))]).contains low
          = ((st.allDeclared ++ [stripQuotes (jsTrim raw)]).map jsToLower).contains low := by
        rw [List.map_append, List.map_cons, List.map_nil, contains_append_single,
          contains_append_single, hinv low]
      split
      · exact hgoal
      · split
        · exact hgoal
        · split
          · rcases hcall : isFontAvailable fe st.cache (stripQuotes (jsTrim raw)) with ⟨ok, c⟩
            exact hgoal
          · exact hgoal

/-- Helper: `scanList` preserves the seen/declared agreement. -/
lemma scanList_inv (fe : FontEnv) (families : List String) :
    ∀ st : ResolveState,
      (∀ low, st.seen.contains low = (st.allDeclared.map jsToLower).contains low) →
      ∀ low, (scanList fe st families).seen.contains low
        = ((scanList fe st families).allDeclared.map jsToLower).contains low := by
  induction families with
  | nil => intro st hinv; exact hinv
  | cons raw rest ih =>
      intro st hinv
      exact ih (scanStep fe st raw) (scanStep_inv fe st raw hinv)

/-- Helper: the stage-1 ancestor walk preserves the seen/declared
agreement; since the initial state satisfies it trivially, the state
reaching stage 4 always does, so the dead-pass theorem applies to every
run of the cascade. -/
lemma stage1Go_inv (fe : FontEnv) (se : StyleEnv) :
    ∀ (fuel : Nat) (node : Option Nat) (st : ResolveState),
      (∀ low, st.seen.contains low = (st.allDeclared.map jsToLower).contains low) →
      ∀ low, (stage1Go fe se fuel node st).seen.contains low
        = ((stage1Go fe se fuel node st).allDeclared.map jsToLower).contains low := by
  intro fuel
  induction fuel with
  | zero => intro node st hinv; cases node <;> exact hinv
  | succ k ih =>
      intro node st hinv
      cases node with
      | none => exact hinv
      | some n =>
          exact ih (ascendS se n) _ (scanList_inv fe (parseFamilies (se.fontFamily n)) st hinv)
